import Mathlib

/-
Verification of the node-paging, caching and dual-backend resource-access
subsystem of the i3s reader.  The Rust sources are shallowly embedded:
pure functions become Lean functions, the stateful caches become explicit
state records that are threaded through the operations, machine integers
become Nat (with an explicit `% 256` where the source uses a `u8`), and
fallible Rust code returns `Except String`.  Fields of the serde data
containers that are never read by the operations under verification
(floating-point extents, CRS metadata, free-form strings, ...) are omitted
from the embedded records; every field that any embedded operation reads
is present under its source name.
-/

namespace I3S

/-- Compression options (src/options.rs, `enum Compression`). -/
inductive Compression where
  | Uncompressed
  | Compressed
deriving DecidableEq

/-- Texture image formats (src/options.rs, `enum ImageFormat`). -/
inductive ImageFormat where
  | PNG
  | JPG
  | DDS
  | KTX2
  | KtcEtc2
deriving DecidableEq

/-- Conversion of an image format to its path string
(src/options.rs, `impl AsRef<str> for ImageFormat`).  The source calls
`todo!()` for the DDS/KTX2/KtcEtc2 arms, which panics; that is modelled
by `none`. -/
def ImageFormat.as_ref : ImageFormat → Option String
  | ImageFormat.PNG => some "png"
  | ImageFormat.JPG => some "jpg"
  | _ => none

/-- LOD selection metrics (src/options.rs, `enum LODSelectionMetric`). -/
inductive LODSelectionMetric where
  | MaxScreenThresholdSQ
  | DensityThreshold
deriving DecidableEq

/-- I3S backend formats (src/options.rs, `enum I3SFormat`). -/
inductive I3SFormat where
  | SLPK
  | REST
deriving DecidableEq

/-- Backend selection from an input URI (src/options.rs,
`I3SFormat::from_uri`).  Strings are embedded as lists of characters;
`str::ends_with` / `str::starts_with` become suffix / isPrefixOf tests. -/
def I3SFormat.from_uri (uri : List Char) : Except String I3SFormat :=
  if List.isSuffixOf ".slpk".toList uri then Except.ok I3SFormat.SLPK
  else if List.isPrefixOf "http".toList uri then Except.ok I3SFormat.REST
  else Except.error "Invalid URI"

/-- Compressed vertex attribute metadata (src/attr.rs,
`struct CompressedAttributes`).  Only its presence is ever consulted by
the URI gating logic. -/
structure CompressedAttributes where
  encoding : String
  attributes : List String
deriving DecidableEq

/-- Geometry buffer (src/geom.rs, `struct GeometryBuffer`).  Of its
fields only `compressed_attributes` is read by the operations under
verification; the per-attribute layout metadata is omitted. -/
structure GeometryBuffer where
  compressed_attributes : Option CompressedAttributes
deriving DecidableEq

/-- Geometry definition (src/geom.rs, `struct GeometryDefinition`). -/
structure GeometryDefinition where
  geometry_buffers : List GeometryBuffer
deriving DecidableEq

/-- Check whether a geometry definition has a buffer with compressed
attributes (src/geom.rs, `GeometryDefinition::has_compressed`). -/
def GeometryDefinition.has_compressed (g : GeometryDefinition) : Bool :=
  g.geometry_buffers.any (fun gb => gb.compressed_attributes.isSome)

/-- Texture format entry (src/visual.rs, `struct TextureFormat`). -/
structure TextureFormat where
  name : String
  format : ImageFormat
deriving DecidableEq

/-- Texture set definition (src/visual.rs, `struct TextureSetDefinition`). -/
structure TextureSetDefinition where
  formats : List TextureFormat
  atlas : Bool
deriving DecidableEq

/-- Check whether a texture set declares a compressed slot
(src/visual.rs, `TextureSetDefinition::has_compressed`): the source
tests `formats.len() == 2`. -/
def TextureSetDefinition.has_compressed (t : TextureSetDefinition) : Bool :=
  t.formats.length == 2

/-- Node page layout parameters (src/node.rs,
`struct NodePageDefinition`). -/
structure NodePageDefinition where
  nodes_per_page : Nat
  lod_selection_metric : LODSelectionMetric
  root_index : Nat
deriving DecidableEq

/-- Scene definition (src/defn.rs, `struct SceneDefinition`), restricted
to the fields the embedded operations read: the node-page layout and the
texture-set / geometry definition tables.  The remaining serde fields
(ids, names, CRS data, extents, ...) are never consulted by the
node-paging, URI-building or decode code. -/
structure SceneDefinition where
  node_pages : Option NodePageDefinition
  texture_set_definitions : Option (List TextureSetDefinition)
  geometry_definitions : Option (List GeometryDefinition)
deriving DecidableEq

/-- Helper function to calculate the node page index (src/node.rs,
`get_node_page_index`).  Rust `usize` division is embedded as Nat
division; the source would panic when `nodes_per_page == 0`, so every
theorem about it carries a `0 < nodes_per_page` hypothesis. -/
def get_node_page_index (node_index nodes_per_page : Nat) : Nat :=
  node_index / nodes_per_page

/-- Helper function to calculate the node index within a node page
(src/node.rs, `get_node_index_in_node_page`). -/
def get_node_index_in_node_page (node_index nodes_per_page : Nat) : Nat :=
  node_index % nodes_per_page

/-- I3S node (src/node.rs, `struct Node`), restricted to the fields read
by graph navigation and traversal.  The bounding volume, LOD threshold,
mesh payload and the serde-skipped extras/cache fields are never read by
the navigation code. -/
structure Node where
  index : Nat
  parent_index : Option Nat
  children : List Nat
deriving DecidableEq

/-- Check if the node is the root node (src/node.rs, `Node::is_root`). -/
def Node.is_root (n : Node) : Bool :=
  n.parent_index.isNone

/-- Check if the node is a leaf node (src/node.rs, `Node::is_leaf`). -/
def Node.is_leaf (n : Node) : Bool :=
  n.children.isEmpty

/-- Node page (src/node.rs, `struct NodePage`). -/
structure NodePage where
  nodes : List Node
deriving DecidableEq

namespace SceneLayerPackage

/-- Archive-backend compressed texture URI (src/slpk.rs,
`SceneLayerPackage::compressed_texture_uri`).  The source loop with an
early return over the texture definitions is the `List.any` test. -/
def compressed_texture_uri (sd : SceneDefinition) (resource : Nat)
    (name fmt : String) : Except String String :=
  match sd.texture_set_definitions with
  | some texture_definitions =>
    if texture_definitions.any (fun texture_def => texture_def.has_compressed) then
      Except.ok ("nodes/" ++ toString resource ++ "/textures/" ++ name ++ ".bin." ++ fmt ++ ".gz")
    else
      Except.error "No compressed texture URI available"
  | none => Except.error "Texture definitions not found in scene definition."

/-- Archive-backend uncompressed texture URI (src/slpk.rs,
`SceneLayerPackage::uncompressed_texture_uri`): errors only when the
texture-set table is absent, even when it is present but empty. -/
def uncompressed_texture_uri (sd : SceneDefinition) (resource : Nat)
    (name fmt : String) : Except String String :=
  if sd.texture_set_definitions.isNone then
    Except.error "Texture definitions not found in scene definition."
  else
    Except.ok ("nodes/" ++ toString resource ++ "/textures/" ++ name ++ ".bin." ++ fmt)

/-- Archive-backend compressed geometry URI (src/slpk.rs,
`SceneLayerPackage::compressed_geometry_uri`). -/
def compressed_geometry_uri (sd : SceneDefinition) (resource : Nat) :
    Except String String :=
  match sd.geometry_definitions with
  | some geometry_definitions =>
    if geometry_definitions.any (fun geometry_def => geometry_def.has_compressed) then
      Except.ok ("nodes/" ++ toString resource ++ "/geometries/1.bin")
    else
      Except.error "No compressed geometry URI available"
  | none => Except.error "Geometry definitions not found in scene definition."

/-- Archive-backend uncompressed geometry URI (src/slpk.rs,
`SceneLayerPackage::uncompressed_geometry_uri`): always succeeds and
does not consult the scene definition. -/
def uncompressed_geometry_uri (_sd : SceneDefinition) (resource : Nat) :
    Except String String :=
  Except.ok ("nodes/" ++ toString resource ++ "/geometries/0.bin")

/-- Archive-backend geometry URI dispatch (src/slpk.rs,
`impl UriBuilder for SceneLayerPackage`, `create_geometry_uri`). -/
def create_geometry_uri (sd : SceneDefinition) (resource : Nat)
    (compression : Compression) : Except String String :=
  match compression with
  | Compression.Compressed => compressed_geometry_uri sd resource
  | Compression.Uncompressed => uncompressed_geometry_uri sd resource

/-- Archive-backend texture URI dispatch (src/slpk.rs,
`impl UriBuilder for SceneLayerPackage`, `create_texture_uri`). -/
def create_texture_uri (sd : SceneDefinition) (resource : Nat)
    (name fmt : String) (compression : Compression) : Except String String :=
  match compression with
  | Compression.Compressed => compressed_texture_uri sd resource name fmt
  | Compression.Uncompressed => uncompressed_texture_uri sd resource name fmt

end SceneLayerPackage

namespace Service

/-- Service-backend uncompressed texture URI (src/service.rs,
`Service::uncompressed_texture_uri`): requires the texture-set table to
be present and non-empty. -/
def uncompressed_texture_uri (sd : SceneDefinition) (resource : Nat)
    (name : String) : Option String :=
  match sd.texture_set_definitions with
  | some texture_definitions =>
    if !texture_definitions.isEmpty then
      some ("layers/0/nodes/" ++ toString resource ++ "/textures/" ++ name)
    else
      none
  | none => none

/-- Service-backend compressed texture URI (src/service.rs,
`Service::compressed_texture_uri`). -/
def compressed_texture_uri (sd : SceneDefinition) (resource : Nat)
    (name : String) : Option String :=
  match sd.texture_set_definitions with
  | some texture_definitions =>
    if texture_definitions.any (fun texture_def => texture_def.has_compressed) then
      some ("layers/0/nodes/" ++ toString resource ++ "/textures/" ++ name)
    else
      none
  | none => none

/-- Service-backend uncompressed geometry URI (src/service.rs,
`Service::uncompressed_geometry_uri`): infallible. -/
def uncompressed_geometry_uri (resource : Nat) : String :=
  "layers/0/nodes/" ++ toString resource ++ "/geometries/0"

/-- Service-backend compressed geometry URI (src/service.rs,
`Service::compressed_geometry_uri`). -/
def compressed_geometry_uri (sd : SceneDefinition) (resource : Nat) :
    Option String :=
  match sd.geometry_definitions with
  | some geometry_definitions =>
    if geometry_definitions.any (fun geometry_def => geometry_def.has_compressed) then
      some ("layers/0/nodes/" ++ toString resource ++ "/geometries/1")
    else
      none
  | none => none

/-- Service-backend geometry URI dispatch (src/service.rs,
`impl UriBuilder for Service`, `create_geometry_uri`). -/
def create_geometry_uri (sd : SceneDefinition) (resource : Nat)
    (compression : Compression) : Option String :=
  match compression with
  | Compression.Compressed => compressed_geometry_uri sd resource
  | Compression.Uncompressed => some (uncompressed_geometry_uri resource)

/-- Service-backend texture URI dispatch (src/service.rs,
`impl UriBuilder for Service`, `create_texture_uri`; the `fmt` argument
is received and discarded by the source). -/
def create_texture_uri (sd : SceneDefinition) (resource : Nat)
    (name fmt : String) (compression : Compression) : Option String :=
  let _ := fmt
  match compression with
  | Compression.Compressed => compressed_texture_uri sd resource name
  | Compression.Uncompressed => uncompressed_texture_uri sd resource name

end Service

/-- Association-list lookup, the embedding of the `HashMap` / `DashMap`
lookups of the caches (entries are only ever inserted under keys that
are absent, so an association list with fresh keys consed to the front
is an exact model). -/
def lookupA {α : Type} : List (Nat × α) → Nat → Option α
  | [], _ => none
  | (k, v) :: rest, key => if k = key then some v else lookupA rest key

/-- Mutable state of a `SceneLayerPackage` (src/slpk.rs): the node-page
cache (`cache : DashMap<String, Arc<NodePage>>`, keyed here by the page
index that the source formats into the string key) together with a
counter of Byte Accessor calls (`Accessor::get` invocations), which the
spec uses as the observable for the caching laws. -/
structure SlpkState where
  pageCache : List (Nat × NodePage)
  fetchCount : Nat
deriving DecidableEq

namespace SceneLayerPackage

/-- Fetch a node page by index (src/slpk.rs,
`SceneLayerPackage::get_node_page`).  On a cache miss the source calls
`self.get` (one Byte Accessor call), gunzips and parses the bytes, and
inserts the page; `backend` abstracts that fetch-decompress-parse
pipeline for one page index, and every cache miss counts exactly one
fetch whether or not it succeeds.  Errors are not cached. -/
def get_node_page (backend : Nat → Except String NodePage) (st : SlpkState)
    (index : Nat) : Except String NodePage × SlpkState :=
  match lookupA st.pageCache index with
  | some node_page => (Except.ok node_page, st)
  | none =>
    match backend index with
    | Except.error e =>
      (Except.error e, { st with fetchCount := st.fetchCount + 1 })
    | Except.ok node_page =>
      (Except.ok node_page,
       { pageCache := (index, node_page) :: st.pageCache,
         fetchCount := st.fetchCount + 1 })

/-- Resolve a node by global index (src/slpk.rs,
`impl Accessor for SceneLayerPackage`, `get_node`): read the node-page
layout from the scene definition, locate the owning page and in-page
offset, fetch the page, and bounds-check the offset against the page
length.  The source would panic on division when `nodes_per_page == 0`;
theorems therefore carry a positivity hypothesis. -/
def get_node_st (sd : SceneDefinition) (backend : Nat → Except String NodePage)
    (st : SlpkState) (index : Nat) : Except String Node × SlpkState :=
  match sd.node_pages with
  | none => (Except.error "NodePages definition not found in scene definition.", st)
  | some node_page_def =>
    let nodes_per_page := node_page_def.nodes_per_page
    let node_page_index := get_node_page_index index nodes_per_page
    match get_node_page backend st node_page_index with
    | (Except.error e, st') => (Except.error e, st')
    | (Except.ok node_page, st') =>
      let node_index := get_node_index_in_node_page index nodes_per_page
      let num_nodes := node_page.nodes.length
      if h : node_index < num_nodes then
        (Except.ok (node_page.nodes.get ⟨node_index, h⟩), st')
      else
        (Except.error ("Index " ++ toString node_index ++ " is greater than "
          ++ toString num_nodes ++ " nodes in the node page"), st')

end SceneLayerPackage

/-- Combined mutable state seen by a `NodeArray` backed by a
`SceneLayerPackage`: the per-index node cache
(src/node.rs, `NodeArray.nodes : HashMap<usize, Arc<Node>>`) plus the
package state. -/
structure ResolveState where
  nodeCache : List (Nat × Node)
  slpk : SlpkState
deriving DecidableEq

namespace NodeArray

/-- Resolve a node through the node cache (src/node.rs,
`NodeArray::get`): return the cached node if present; otherwise ask the
resource manager, cache a success, and turn an error into `none`
without caching anything. -/
def get_st (sd : SceneDefinition) (backend : Nat → Except String NodePage)
    (s : ResolveState) (index : Nat) : Option Node × ResolveState :=
  match lookupA s.nodeCache index with
  | some node => (some node, s)
  | none =>
    match SceneLayerPackage.get_node_st sd backend s.slpk index with
    | (Except.error _, st') => (none, { s with slpk := st' })
    | (Except.ok node, st') =>
      (some node, { nodeCache := (index, node) :: s.nodeCache, slpk := st' })

end NodeArray

/-- Resolve a list of child indices in order, dropping the indices that
fail to resolve (src/node.rs, `Node::get_children` body:
`children.iter().filter_map(|&child_index| nodes.get(&child_index))`),
with the cache state threaded through the successive `get` calls. -/
def get_children_list (sd : SceneDefinition)
    (backend : Nat → Except String NodePage) :
    List Nat → ResolveState → List Node × ResolveState
  | [], s => ([], s)
  | child_index :: rest, s =>
    match NodeArray.get_st sd backend s child_index with
    | (some node, s') =>
      let (nodes, s'') := get_children_list sd backend rest s'
      (node :: nodes, s'')
    | (none, s') => get_children_list sd backend rest s'

/-- Get the children nodes (src/node.rs, `Node::get_children`). -/
def Node.get_children (sd : SceneDefinition)
    (backend : Nat → Except String NodePage) (self : Node)
    (s : ResolveState) : List Node × ResolveState :=
  get_children_list sd backend self.children s

/-- Get the parent node (src/node.rs, `Node::get_parent`): the root has
no parent; a parent index is rejected when it is `>= nodes.len()`, where
`NodeArray::len` is the number of nodes materialized in the cache so
far; otherwise the parent is resolved through `NodeArray::get`. -/
def Node.get_parent (sd : SceneDefinition)
    (backend : Nat → Except String NodePage) (self : Node)
    (s : ResolveState) : Option Node × ResolveState :=
  match self.parent_index with
  | none => (none, s)
  | some parent_index =>
    if parent_index ≥ s.nodeCache.length then (none, s)
    else
      match NodeArray.get_st sd backend s parent_index with
      | (none, s') => (none, s')
      | (some parent_node, s') => (some parent_node, s')

/-- Get the sibling nodes (src/node.rs, `Node::get_siblings`): the
parent's children with the node itself filtered out by index; an absent
parent yields the empty list. -/
def Node.get_siblings (sd : SceneDefinition)
    (backend : Nat → Except String NodePage) (self : Node)
    (s : ResolveState) : List Node × ResolveState :=
  match Node.get_parent sd backend self s with
  | (none, s') => ([], s')
  | (some parent, s') =>
    let (children, s'') := Node.get_children sd backend parent s'
    (children.filter (fun sibling => sibling.index != self.index), s'')

/-- Resolution of node indices as a pure function, abstracting
`NodeArray::get` for the traversal theorems: with a fixed scene and
backend, `get` is deterministic — every call on the same index yields
the same node (the caching laws proved below) — so the tree walk only
observes one resolution function. -/
def getChildrenPure (store : Nat → Option Node) (n : Node) : List Node :=
  n.children.filterMap store

/-- Work-list loop of src/node.rs, `NodeArray::traverse`.  The stack is
a `VecDeque` used LIFO (`push_back` / `pop_back`); the list head here is
the back of the deque.  Popping an entry invokes the callback; a `false`
result returns immediately, a `true` result pushes the node's resolved
children (in child-list order, hence popped in reverse order) one level
deeper.  The level counter is a Rust `u8`, embedded as Nat with an
explicit wrap `% 256`.  `fuel` bounds the number of loop iterations;
each iteration pops exactly one entry, so any fuel at least the number
of reachable nodes computes the full walk. -/
def traverseAux (store : Nat → Option Node) (callback : Node → Nat → Bool) :
    Nat → List (Option Node × Nat) → List (Node × Nat)
  | 0, _ => []
  | _ + 1, [] => []
  | fuel + 1, (none, _) :: rest => traverseAux store callback fuel rest
  | fuel + 1, (some node, level) :: rest =>
    if callback node level then
      (node, level) ::
        traverseAux store callback fuel
          (((getChildrenPure store node).reverse.map
              (fun child => (some child, (level + 1) % 256))) ++ rest)
    else
      [(node, level)]

/-- Whole-tree traversal (src/node.rs, `NodeArray::traverse`): start
from the resolution of the root index at level 0.  The returned list is
the sequence of `callback` invocations (node, level), in order. -/
def NodeArray.traverse (store : Nat → Option Node)
    (callback : Node → Nat → Bool) (fuel : Nat) (root_index : Nat) :
    List (Node × Nat) :=
  traverseAux store callback fuel [(store root_index, 0)]

/-- Longest prefix of a list whose elements all satisfy `p`, together
with the first element that fails `p` (the visit sequence of a traversal
stopped by its visitor). -/
def takeThrough {α : Type} (p : α → Bool) : List α → List α
  | [] => []
  | a :: rest => if p a then a :: takeThrough p rest else [a]

mutual
/-- Finite node tree: one node record and its subtrees. -/
inductive NTree where
  | mk (node : Node) (children : NForest)
/-- Finite forest of node trees. -/
inductive NForest where
  | nil
  | cons (t : NTree) (ts : NForest)
end

/-- Root node record of a tree. -/
def NTree.root : NTree → Node
  | NTree.mk node _ => node

mutual
/-- Number of nodes in a tree. -/
def NTree.size : NTree → Nat
  | NTree.mk _ children => NForest.sizeF children + 1
/-- Number of nodes in a forest. -/
def NForest.sizeF : NForest → Nat
  | NForest.nil => 0
  | NForest.cons t ts => NTree.size t + NForest.sizeF ts
end

/-- Root node records of the members of a forest, in order. -/
def NForest.roots : NForest → List Node
  | NForest.nil => []
  | NForest.cons t ts => NTree.root t :: NForest.roots ts

mutual
/-- Visit sequence of a full traversal of a tree whose root is popped at
level `level`: the root first, then the subtrees from the LAST child to
the first (children are pushed in list order onto a LIFO stack), one
level deeper modulo 256. -/
def NTree.flatten : NTree → Nat → List (Node × Nat)
  | NTree.mk node children, level =>
    (node, level) :: NForest.flattenRev children ((level + 1) % 256)
/-- Visit sequence of the members of a forest at one level, last member
first. -/
def NForest.flattenRev : NForest → Nat → List (Node × Nat)
  | NForest.nil, _ => []
  | NForest.cons t ts, level =>
    NForest.flattenRev ts level ++ NTree.flatten t level
end

/-- Stack segment produced by pushing the roots of a forest in order
onto the back of the work list: the last member ends up on top (at the
list head). -/
def NForest.stackRev : NForest → Nat → List (Option Node × Nat)
  | NForest.nil, _ => []
  | NForest.cons t ts, level =>
    NForest.stackRev ts level ++ [(some (NTree.root t), level)]

mutual
/-- Node indices of a tree in traversal order. -/
def NTree.indicesRev : NTree → List Nat
  | NTree.mk node children => node.index :: NForest.indicesRevF children
/-- Node indices of a forest in traversal order (last member first). -/
def NForest.indicesRevF : NForest → List Nat
  | NForest.nil => []
  | NForest.cons t ts => NForest.indicesRevF ts ++ NTree.indicesRev t
end

mutual
/-- The tree is exactly the unfolding of `store` from its root: each
tree node's resolved children (`getChildrenPure`, the list that
`Node::get_children` returns) are precisely the roots of its subtrees,
in order. -/
inductive ReprT (store : Nat → Option Node) : NTree → Prop where
  | mk : ∀ (node : Node) (children : NForest),
      getChildrenPure store node = NForest.roots children →
      ReprF store children → ReprT store (NTree.mk node children)
/-- Forest version of `ReprT`. -/
inductive ReprF (store : Nat → Option Node) : NForest → Prop where
  | nil : ReprF store NForest.nil
  | cons : ∀ (t : NTree) (ts : NForest),
      ReprT store t → ReprF store ts → ReprF store (NForest.cons t ts)
end

/-- Outcome of running a fallible Rust computation, distinguishing a
returned error from a panic (`unwrap` on an `Err`, out-of-bounds `Vec`
indexing, or a `todo!()` arm). -/
inductive Outcome (α : Type) where
  | ok (a : α)
  | err (e : String)
  | panic
deriving DecidableEq

/-- Evaluation of Rust `Result::unwrap`: a panic on the error arm. -/
def unwrapResult {α : Type} : Except String α → Outcome α
  | Except.ok a => Outcome.ok a
  | Except.error _ => Outcome.panic

/-- Byte content of a zip archive, as a partial map from entry names to
entry bytes (src/slpk.rs uses `ZipArchive<File>`; bytes are Nat lists). -/
structure ZipEntries where
  entries : String → Option (List Nat)

/-- Read one entry from the archive (src/slpk.rs, `get_data_from_zip`):
a missing entry is a returned error, never a panic.  The source embeds
the zip library's error text after the same message; the model names
the entry instead. -/
def get_data_from_zip (archive : ZipEntries) (uri : String) :
    Except String (List Nat) :=
  match archive.entries uri with
  | none => Except.error ("Failed to find file in archive: " ++ uri)
  | some buffer => Except.ok buffer

/-- Open a scene layer package (src/slpk.rs, `SceneLayerPackage::open`):
read the mandatory `3dSceneLayer.json.gz` entry and decode it.  The
gzip-decompress-and-parse step `decode_scene_definition` is external
I/O-free code modelled by the `decode` parameter. -/
def SceneLayerPackage.open
    (decode : List Nat → Except String SceneDefinition)
    (archive : ZipEntries) : Except String SceneDefinition :=
  match get_data_from_zip archive "3dSceneLayer.json.gz" with
  | Except.error e => Except.error e
  | Except.ok data =>
    match decode data with
    | Except.error e => Except.error ("Failed to decode scene definition: " ++ e)
    | Except.ok scene_definition => Except.ok scene_definition

/-- Create a SceneLayer from a URI (src/lib.rs, `SceneLayer::from_uri`
composed with src/resource.rs, `resource_manager_factory`): select the
backend from the URI shape, then build the resource manager.  The
factory closures call `.unwrap()` on `SceneLayerPackage::open` /
`Service::connect`, so a failed open is a panic, not a returned error;
`connect` abstracts the outcome of `Service::connect` for this URI. -/
def SceneLayer.from_uri
    (decode : List Nat → Except String SceneDefinition)
    (connect : Except String SceneDefinition)
    (archive : ZipEntries) (uri : List Char) : Outcome SceneDefinition :=
  match I3SFormat.from_uri uri with
  | Except.error e => Outcome.err e
  | Except.ok I3SFormat.SLPK => unwrapResult (SceneLayerPackage.open decode archive)
  | Except.ok I3SFormat.REST => unwrapResult connect

/-- Mesh material (src/mesh.rs, `struct MeshMaterial`): the definition
id into the scene's texture-set table, the per-node resource id, and
the per-mesh decode cache slot. -/
structure MeshMaterial where
  definition : Nat
  resource : Nat
  cache : List (String × List Nat)
deriving DecidableEq

/-- Decode a material (src/decode.rs,
`MeshPyramidDecoder::decode_material`).  On a cache miss the source
indexes `texture_set_definitions[material.definition]` and
`formats[1]` / `formats[0]` with plain `Vec` indexing — both panic when
out of range — and `fmt.format.as_ref()` panics on the `todo!()` arms;
those panics are `Outcome.panic`.  `create_texture_uri` and `get` are
the resource manager's URI builder and Byte Accessor. -/
def MeshPyramidDecoder.decode_material (sd : SceneDefinition)
    (create_texture_uri : Nat → String → String → Compression → Except String String)
    (get : String → Except String (List Nat))
    (material : MeshMaterial) (compression : Compression) :
    Outcome (List Nat × MeshMaterial) :=
  match material.cache.lookup "data" with
  | some data => Outcome.ok (data, material)
  | none =>
    match sd.texture_set_definitions with
    | none => Outcome.err "Texture set definitions not found in scene definition."
    | some texture_set_definitions =>
      match texture_set_definitions.get? material.definition with
      | none => Outcome.panic
      | some texture_def =>
        let fmtSlot : Nat := if compression = Compression.Compressed then 1 else 0
        match texture_def.formats.get? fmtSlot with
        | none => Outcome.panic
        | some fmt =>
          match fmt.format.as_ref with
          | none => Outcome.panic
          | some fmtStr =>
            match create_texture_uri material.resource fmt.name fmtStr compression with
            | Except.error e => Outcome.err e
            | Except.ok uri =>
              match get uri with
              | Except.error e => Outcome.err e
              | Except.ok data =>
                Outcome.ok (data, { material with cache := ("data", data) :: material.cache })

section ConcreteInputs

/-- Scene whose texture-set table is present but empty (the divergent
case for the two URI builders, and an out-of-range material definition
id for any material). -/
def sd_empty_textures : SceneDefinition :=
  { node_pages := none, texture_set_definitions := some [], geometry_definitions := none }

/-- Scene with one two-slot texture set (compressed variant declared). -/
def sd_with_textures : SceneDefinition :=
  { node_pages := none
    texture_set_definitions :=
      some [{ formats := [{ name := "0", format := ImageFormat.JPG },
                          { name := "0_0_1", format := ImageFormat.DDS }],
              atlas := false }]
    geometry_definitions := none }

/-- Scene with one geometry definition carrying compressed attributes. -/
def sd_with_compressed_geometry : SceneDefinition :=
  { node_pages := none
    texture_set_definitions := none
    geometry_definitions :=
      some [{ geometry_buffers :=
                [{ compressed_attributes :=
                     some { encoding := "draco", attributes := ["position"] } }] }] }

/-- Node-page layout with one node per page and root index 0. -/
def npd_one : NodePageDefinition :=
  { nodes_per_page := 1
    lod_selection_metric := LODSelectionMetric.MaxScreenThresholdSQ
    root_index := 0 }

/-- Scene declaring one node per page with root index 0. -/
def sd_one_per_page : SceneDefinition :=
  { node_pages := some npd_one
    texture_set_definitions := none
    geometry_definitions := none }

/-- Empty resolve state: nothing cached, no fetches performed. -/
def state_empty : ResolveState :=
  { nodeCache := [], slpk := { pageCache := [], fetchCount := 0 } }

/-- Backend whose page 5 exists but is empty (zero nodes). -/
def backend_empty_page : Nat → Except String NodePage :=
  fun index => if index = 5 then Except.ok { nodes := [] }
    else Except.error "Failed to find file in archive"

/-- A root node with no children. -/
def node_zero : Node := { index := 0, parent_index := none, children := [] }

/-- Backend serving exactly page 0 = [node 0]. -/
def backend_one_node : Nat → Except String NodePage :=
  fun index => if index = 0 then Except.ok { nodes := [node_zero] }
    else Except.error "Failed to find file in archive"

/-- Backend for which every page fetch fails. -/
def backend_fail : Nat → Except String NodePage :=
  fun _ => Except.error "Failed to find file in archive: nodepages/0.json.gz"

/-- Archive with no entries at all (in particular no 3dSceneLayer.json.gz). -/
def zip_empty : ZipEntries := { entries := fun _ => none }

/-- Scene-definition codec stub; never reached on the inputs used. -/
def decode_stub : List Nat → Except String SceneDefinition :=
  fun _ => Except.error "unused"

/-- Service connection stub; never reached on the inputs used. -/
def connect_stub : Except String SceneDefinition := Except.error "unused"

/-- Byte Accessor stub; never reached on the inputs used. -/
def get_stub : String → Except String (List Nat) :=
  fun _ => Except.error "unused"

/-- Fresh mesh material with definition id 0 and an empty decode cache. -/
def material_fresh : MeshMaterial := { definition := 0, resource := 0, cache := [] }

/-- Node 1, whose parent index 1000 exceeds any small cache size. -/
def node_one : Node := { index := 1, parent_index := some 1000, children := [] }

/-- Node 1000, the parent of node 1. -/
def node_thousand : Node := { index := 1000, parent_index := none, children := [1] }

/-- Backend serving exactly the singleton pages of node 1 and node 1000
(one node per page). -/
def backend_two_nodes : Nat → Except String NodePage :=
  fun index =>
    if index = 1 then Except.ok { nodes := [node_one] }
    else if index = 1000 then Except.ok { nodes := [node_thousand] }
    else Except.error "Failed to find file in archive"

/-- Resolution function for a chain of 257 nodes, node i's only child
being node i+1 (deep enough to wrap the 8-bit traversal level). -/
def store_chain : Nat → Option Node :=
  fun i =>
    if i < 257 then
      some { index := i
             parent_index := if i = 0 then none else some (i - 1)
             children := if i = 256 then [] else [i + 1] }
    else none

/-- Root of the three-node example store: children 1 and 2. -/
def node_root_small : Node := { index := 0, parent_index := none, children := [1, 2] }

/-- First leaf of the three-node example store. -/
def node_leaf_one : Node := { index := 1, parent_index := some 0, children := [] }

/-- Second leaf of the three-node example store. -/
def node_leaf_two : Node := { index := 2, parent_index := some 0, children := [] }

/-- Resolution function of the three-node example. -/
def store_small : Nat → Option Node :=
  fun i =>
    if i = 0 then some node_root_small
    else if i = 1 then some node_leaf_one
    else if i = 2 then some node_leaf_two
    else none

/-- The three-node example as a tree. -/
def tree_small : NTree :=
  NTree.mk node_root_small
    (NForest.cons (NTree.mk node_leaf_one NForest.nil)
      (NForest.cons (NTree.mk node_leaf_two NForest.nil) NForest.nil))

end ConcreteInputs

/-! Theorems.  Each claim of the specification is settled by exactly one
theorem below; shared helper lemmas come first. -/

/-- Lookup immediately after inserting the same key hits the insertion. -/
theorem lookupA_cons_self {α : Type} (rest : List (Nat × α)) (k : Nat) (v : α) :
    lookupA ((k, v) :: rest) k = some v := by
  simp [lookupA]

/-- A page-cache hit returns the cached page and leaves the state
unchanged. -/
theorem get_node_page_hit (backend : Nat → Except String NodePage)
    (st : SlpkState) (index : Nat) (page : NodePage)
    (h : lookupA st.pageCache index = some page) :
    SceneLayerPackage.get_node_page backend st index = (Except.ok page, st) := by
  simp [SceneLayerPackage.get_node_page, h]

/-- A page-cache miss with a successful backend fetch caches the page
and counts one fetch. -/
theorem get_node_page_miss_ok (backend : Nat → Except String NodePage)
    (st : SlpkState) (index : Nat) (page : NodePage)
    (h : lookupA st.pageCache index = none)
    (hb : backend index = Except.ok page) :
    SceneLayerPackage.get_node_page backend st index
      = (Except.ok page,
         { pageCache := (index, page) :: st.pageCache,
           fetchCount := st.fetchCount + 1 }) := by
  simp [SceneLayerPackage.get_node_page, h, hb]

/-- C1: for every node index and every `nodes_per_page > 0`, the page
index `node_index / nodes_per_page` and in-page offset
`node_index % nodes_per_page` computed by the two helpers satisfy
`page_index * nodes_per_page + offset = node_index` and
`offset < nodes_per_page`. -/
theorem node_index_arithmetic_correct (node_index nodes_per_page : Nat)
    (h : 0 < nodes_per_page) :
    get_node_page_index node_index nodes_per_page * nodes_per_page
        + get_node_index_in_node_page node_index nodes_per_page = node_index
      ∧ get_node_index_in_node_page node_index nodes_per_page < nodes_per_page := by
  unfold get_node_page_index get_node_index_in_node_page
  exact ⟨by rw [Nat.mul_comm]; exact Nat.div_add_mod node_index nodes_per_page,
         Nat.mod_lt node_index h⟩

/-- Witness for C1 at node index 130 with 64 nodes per page. -/
theorem node_index_arithmetic_correct_witness :
    0 < 64
      ∧ (get_node_page_index 130 64 * 64 + get_node_index_in_node_page 130 64 = 130
         ∧ get_node_index_in_node_page 130 64 < 64) :=
  ⟨by decide, node_index_arithmetic_correct 130 64 (by decide)⟩

/-- C10: `I3SFormat::from_uri` tests the `.slpk` suffix before the
`http` prefix, so a URI with both shapes selects the SLPK backend, and
an input with neither shape is the invalid-input error. -/
theorem format_selection_slpk_before_http :
    (∀ uri : List Char, List.isSuffixOf ".slpk".toList uri = true →
        I3SFormat.from_uri uri = Except.ok I3SFormat.SLPK)
      ∧ I3SFormat.from_uri "http://host/layer.slpk".toList = Except.ok I3SFormat.SLPK
      ∧ (∀ uri : List Char, List.isSuffixOf ".slpk".toList uri = false →
          List.isPrefixOf "http".toList uri = false →
          I3SFormat.from_uri uri = Except.error "Invalid URI") := by
  refine ⟨?_, ?_, ?_⟩
  · intro uri h
    simp at h
    simp [I3SFormat.from_uri, h]
  · simp [I3SFormat.from_uri]
    decide
  · intro uri h1 h2
    simp at h1 h2
    simp [I3SFormat.from_uri, h1, h2]

/-- Witness for C10 on `a.slpk` (suffix present) and `ftp://x`
(neither shape). -/
theorem format_selection_slpk_before_http_witness :
    (List.isSuffixOf ".slpk".toList "a.slpk".toList = true
        ∧ I3SFormat.from_uri "a.slpk".toList = Except.ok I3SFormat.SLPK)
      ∧ (List.isSuffixOf ".slpk".toList "ftp://x".toList = false
        ∧ List.isPrefixOf "http".toList "ftp://x".toList = false
        ∧ I3SFormat.from_uri "ftp://x".toList = Except.error "Invalid URI") :=
  ⟨⟨by decide, format_selection_slpk_before_http.1 _ (by decide)⟩,
   ⟨by decide, by decide,
    format_selection_slpk_before_http.2.2 _ (by decide) (by decide)⟩⟩

/-- C4: the archive URI builder's uncompressed geometry request always
succeeds with the slot-0 path; the compressed request succeeds with the
slot-1 path exactly when the geometry-definition table has a definition
with compressed attributes, and otherwise returns an error (with the
no-compressed-variant message when the table exists, and the
missing-table message when it does not) instead of a path. -/
theorem geometry_uri_compression_gating (sd : SceneDefinition) (resource : Nat) :
    SceneLayerPackage.create_geometry_uri sd resource Compression.Uncompressed
        = Except.ok ("nodes/" ++ toString resource ++ "/geometries/0.bin")
      ∧ ((∃ gds, sd.geometry_definitions = some gds
            ∧ gds.any (fun gd => gd.has_compressed) = true) →
          SceneLayerPackage.create_geometry_uri sd resource Compression.Compressed
            = Except.ok ("nodes/" ++ toString resource ++ "/geometries/1.bin"))
      ∧ (∀ gds, sd.geometry_definitions = some gds →
          gds.any (fun gd => gd.has_compressed) = false →
          SceneLayerPackage.create_geometry_uri sd resource Compression.Compressed
            = Except.error "No compressed geometry URI available")
      ∧ (sd.geometry_definitions = none →
          SceneLayerPackage.create_geometry_uri sd resource Compression.Compressed
            = Except.error "Geometry definitions not found in scene definition.") := by
  refine ⟨rfl, ?_, ?_, ?_⟩
  · rintro ⟨gds, hg, hany⟩
    simp [SceneLayerPackage.create_geometry_uri,
      SceneLayerPackage.compressed_geometry_uri, hg, hany]
  · intro gds hg hany
    simp [SceneLayerPackage.create_geometry_uri,
      SceneLayerPackage.compressed_geometry_uri, hg, hany]
  · intro hg
    simp [SceneLayerPackage.create_geometry_uri,
      SceneLayerPackage.compressed_geometry_uri, hg]

/-- Witness for C4 on a scene with a compressed geometry definition. -/
theorem geometry_uri_compression_gating_witness :
    (∃ gds, sd_with_compressed_geometry.geometry_definitions = some gds
        ∧ gds.any (fun gd => gd.has_compressed) = true)
      ∧ SceneLayerPackage.create_geometry_uri sd_with_compressed_geometry 3
          Compression.Uncompressed
          = Except.ok ("nodes/" ++ toString 3 ++ "/geometries/0.bin")
      ∧ SceneLayerPackage.create_geometry_uri sd_with_compressed_geometry 3
          Compression.Compressed
          = Except.ok ("nodes/" ++ toString 3 ++ "/geometries/1.bin") :=
  ⟨⟨_, rfl, by decide⟩,
   (geometry_uri_compression_gating sd_with_compressed_geometry 3).1,
   (geometry_uri_compression_gating sd_with_compressed_geometry 3).2.1
     ⟨_, rfl, by decide⟩⟩

/-- C5 (amended): the archive and service URI builders agree on
availability for geometry URIs for every scene, and for texture URIs
for every scene whose texture-set table is not present-but-empty; in
the present-but-empty case the archive backend's uncompressed texture
request succeeds while the service backend's fails (see the
counterexample). -/
theorem backend_uri_availability_agree_except_empty_textures
    (sd : SceneDefinition) (resource : Nat) (name fmt : String)
    (compression : Compression) :
    ((SceneLayerPackage.create_geometry_uri sd resource compression).isOk
        = (Service.create_geometry_uri sd resource compression).isSome)
      ∧ (sd.texture_set_definitions ≠ some [] →
          (SceneLayerPackage.create_texture_uri sd resource name fmt compression).isOk
            = (Service.create_texture_uri sd resource name fmt compression).isSome) := by
  constructor
  · cases compression with
    | Uncompressed =>
      simp [SceneLayerPackage.create_geometry_uri,
        SceneLayerPackage.uncompressed_geometry_uri,
        Service.create_geometry_uri, Except.isOk, Except.toBool]
    | Compressed =>
      cases hg : sd.geometry_definitions with
      | none =>
        simp [SceneLayerPackage.create_geometry_uri,
          SceneLayerPackage.compressed_geometry_uri,
          Service.create_geometry_uri, Service.compressed_geometry_uri, hg,
          Except.isOk, Except.toBool]
      | some gds =>
        cases hany : gds.any (fun gd => gd.has_compressed) <;>
          simp [SceneLayerPackage.create_geometry_uri,
            SceneLayerPackage.compressed_geometry_uri,
            Service.create_geometry_uri, Service.compressed_geometry_uri, hg, hany,
            Except.isOk, Except.toBool]
  · intro hne
    cases compression with
    | Uncompressed =>
      cases ht : sd.texture_set_definitions with
      | none =>
        simp [SceneLayerPackage.create_texture_uri,
          SceneLayerPackage.uncompressed_texture_uri,
          Service.create_texture_uri, Service.uncompressed_texture_uri, ht,
          Except.isOk, Except.toBool]
      | some tds =>
        cases tds with
        | nil => exact absurd ht hne
        | cons td tds =>
          simp [SceneLayerPackage.create_texture_uri,
            SceneLayerPackage.uncompressed_texture_uri,
            Service.create_texture_uri, Service.uncompressed_texture_uri, ht,
            Except.isOk, Except.toBool]
    | Compressed =>
      cases ht : sd.texture_set_definitions with
      | none =>
        simp [SceneLayerPackage.create_texture_uri,
          SceneLayerPackage.compressed_texture_uri,
          Service.create_texture_uri, Service.compressed_texture_uri, ht,
          Except.isOk, Except.toBool]
      | some tds =>
        cases hany : tds.any (fun td => td.has_compressed) <;>
          simp [SceneLayerPackage.create_texture_uri,
            SceneLayerPackage.compressed_texture_uri,
            Service.create_texture_uri, Service.compressed_texture_uri, ht, hany,
            Except.isOk, Except.toBool]

/-- Witness for C5 on a scene with a non-empty texture-set table. -/
theorem backend_uri_availability_agree_witness :
    sd_with_textures.texture_set_definitions ≠ some []
      ∧ ((SceneLayerPackage.create_texture_uri sd_with_textures 0 "0" "jpg"
            Compression.Uncompressed).isOk
          = (Service.create_texture_uri sd_with_textures 0 "0" "jpg"
              Compression.Uncompressed).isSome) :=
  ⟨by decide,
   (backend_uri_availability_agree_except_empty_textures sd_with_textures 0 "0" "jpg"
      Compression.Uncompressed).2 (by decide)⟩

/-- Counterexample to C5 as stated: on a scene whose texture-set table
is present but empty, the archive backend returns an uncompressed
texture path while the service backend returns none. -/
theorem backend_uri_availability_diverges_on_empty_textures :
    (SceneLayerPackage.create_texture_uri sd_empty_textures 0 "tex" "png"
        Compression.Uncompressed).isOk = true
      ∧ Service.create_texture_uri sd_empty_textures 0 "tex" "png"
          Compression.Uncompressed = none := by
  constructor <;> rfl

/-- C3: when the in-page offset of a node index is at least the length
of its (successfully obtained) page's node list, `get_node` returns an
error rather than a node, and `NodeArray::get` returns `none` without
materializing anything into the node cache.  The positivity hypothesis
reflects that the source would panic on the division otherwise. -/
theorem get_node_offset_out_of_range_is_error
    (sd : SceneDefinition) (backend : Nat → Except String NodePage)
    (s : ResolveState) (index : Nat) (npd : NodePageDefinition) (page : NodePage)
    (hnp : sd.node_pages = some npd)
    (_hpos : 0 < npd.nodes_per_page)
    (hpage : (SceneLayerPackage.get_node_page backend s.slpk
        (get_node_page_index index npd.nodes_per_page)).1 = Except.ok page)
    (hoff : page.nodes.length ≤ get_node_index_in_node_page index npd.nodes_per_page)
    (hmiss : lookupA s.nodeCache index = none) :
    (SceneLayerPackage.get_node_st sd backend s.slpk index).1
        = Except.error ("Index "
            ++ toString (get_node_index_in_node_page index npd.nodes_per_page)
            ++ " is greater than " ++ toString page.nodes.length
            ++ " nodes in the node page")
      ∧ (NodeArray.get_st sd backend s index).1 = none
      ∧ (NodeArray.get_st sd backend s index).2.nodeCache = s.nodeCache := by
  rcases hgp : SceneLayerPackage.get_node_page backend s.slpk
      (get_node_page_index index npd.nodes_per_page) with ⟨r, st2⟩
  rw [hgp] at hpage
  simp only at hpage
  subst hpage
  have hnlt : ¬ get_node_index_in_node_page index npd.nodes_per_page
      < page.nodes.length := by omega
  have hst : SceneLayerPackage.get_node_st sd backend s.slpk index
      = (Except.error ("Index "
          ++ toString (get_node_index_in_node_page index npd.nodes_per_page)
          ++ " is greater than " ++ toString page.nodes.length
          ++ " nodes in the node page"), st2) := by
    simp [SceneLayerPackage.get_node_st, hnp, hgp, hnlt]
  refine ⟨by rw [hst], ?_, ?_⟩ <;>
    simp [NodeArray.get_st, hmiss, hst]

/-- Witness for C3: index 5 with one node per page and an empty page 5. -/
theorem get_node_offset_out_of_range_is_error_witness :
    sd_one_per_page.node_pages = some npd_one
      ∧ 0 < npd_one.nodes_per_page
      ∧ (SceneLayerPackage.get_node_page backend_empty_page state_empty.slpk
          (get_node_page_index 5 npd_one.nodes_per_page)).1
          = Except.ok { nodes := [] }
      ∧ NodePage.nodes { nodes := [] } = ([] : List Node)
      ∧ lookupA state_empty.nodeCache 5 = none
      ∧ ((SceneLayerPackage.get_node_st sd_one_per_page backend_empty_page
            state_empty.slpk 5).1
          = Except.error ("Index "
              ++ toString (get_node_index_in_node_page 5 npd_one.nodes_per_page)
              ++ " is greater than "
              ++ toString (NodePage.nodes { nodes := [] }).length
              ++ " nodes in the node page")
        ∧ (NodeArray.get_st sd_one_per_page backend_empty_page state_empty 5).1 = none
        ∧ (NodeArray.get_st sd_one_per_page backend_empty_page state_empty 5).2.nodeCache
          = state_empty.nodeCache) :=
  ⟨rfl, by decide, rfl, rfl, rfl,
   get_node_offset_out_of_range_is_error sd_one_per_page backend_empty_page
     state_empty 5 npd_one { nodes := [] } rfl (by decide) rfl
     (by decide) rfl⟩

/-- C8 (amended): resolving the same index twice returns equal node
content both times; when the backend fetch for the index's page
succeeds, at most one underlying page fetch occurs across both calls
and the second call performs none — it leaves the whole resolve state
untouched.  (When the page fetch fails, nothing is cached and each call
refetches: see the counterexample.) -/
theorem resolve_twice_cached_when_page_fetch_succeeds
    (sd : SceneDefinition) (backend : Nat → Except String NodePage)
    (s : ResolveState) (index : Nat) (npd : NodePageDefinition)
    (hnp : sd.node_pages = some npd)
    (_hpos : 0 < npd.nodes_per_page)
    (hok : (backend (get_node_page_index index npd.nodes_per_page)).isOk = true) :
    (NodeArray.get_st sd backend s index).1
        = (NodeArray.get_st sd backend (NodeArray.get_st sd backend s index).2 index).1
      ∧ (NodeArray.get_st sd backend (NodeArray.get_st sd backend s index).2 index).2
        = (NodeArray.get_st sd backend s index).2
      ∧ (NodeArray.get_st sd backend s index).2.slpk.fetchCount
        ≤ s.slpk.fetchCount + 1 := by
  cases hc : lookupA s.nodeCache index with
  | some n =>
    refine ⟨?_, ?_, ?_⟩ <;> simp [NodeArray.get_st, hc]
  | none =>
    cases hpc : lookupA s.slpk.pageCache
        (get_node_page_index index npd.nodes_per_page) with
    | some page =>
      have hgp := get_node_page_hit backend s.slpk
        (get_node_page_index index npd.nodes_per_page) page hpc
      by_cases hlt : get_node_index_in_node_page index npd.nodes_per_page
          < page.nodes.length
      · have h1 : NodeArray.get_st sd backend s index
            = (some (page.nodes.get
                ⟨get_node_index_in_node_page index npd.nodes_per_page, hlt⟩),
               ⟨(index, page.nodes.get
                  ⟨get_node_index_in_node_page index npd.nodes_per_page, hlt⟩)
                  :: s.nodeCache, s.slpk⟩) := by
          simp [NodeArray.get_st, hc, SceneLayerPackage.get_node_st, hnp, hgp, hlt]
        refine ⟨?_, ?_, ?_⟩ <;> rw [h1] <;> simp [NodeArray.get_st, lookupA]
      · have h1 : NodeArray.get_st sd backend s index = (none, s) := by
          simp [NodeArray.get_st, hc, SceneLayerPackage.get_node_st, hnp, hgp, hlt]
        refine ⟨?_, ?_, ?_⟩ <;> simp [h1]
    | none =>
      cases hb : backend (get_node_page_index index npd.nodes_per_page) with
      | error e =>
        rw [hb] at hok
        simp [Except.isOk, Except.toBool] at hok
      | ok page =>
        have hgp := get_node_page_miss_ok backend s.slpk
          (get_node_page_index index npd.nodes_per_page) page hpc hb
        by_cases hlt : get_node_index_in_node_page index npd.nodes_per_page
            < page.nodes.length
        · have h1 : NodeArray.get_st sd backend s index
              = (some (page.nodes.get
                  ⟨get_node_index_in_node_page index npd.nodes_per_page, hlt⟩),
                 ⟨(index, page.nodes.get
                    ⟨get_node_index_in_node_page index npd.nodes_per_page, hlt⟩)
                    :: s.nodeCache,
                  ⟨(get_node_page_index index npd.nodes_per_page, page)
                    :: s.slpk.pageCache, s.slpk.fetchCount + 1⟩⟩) := by
            simp [NodeArray.get_st, hc, SceneLayerPackage.get_node_st, hnp, hgp, hlt]
          refine ⟨?_, ?_, ?_⟩ <;> rw [h1] <;>
            simp [NodeArray.get_st, lookupA]
        · have h1 : NodeArray.get_st sd backend s index
              = (none,
                 ⟨s.nodeCache,
                  ⟨(get_node_page_index index npd.nodes_per_page, page)
                    :: s.slpk.pageCache, s.slpk.fetchCount + 1⟩⟩) := by
            simp [NodeArray.get_st, hc, SceneLayerPackage.get_node_st, hnp, hgp, hlt]
          have h2 : NodeArray.get_st sd backend
              ⟨s.nodeCache,
               ⟨(get_node_page_index index npd.nodes_per_page, page)
                 :: s.slpk.pageCache, s.slpk.fetchCount + 1⟩⟩ index
              = (none,
                 ⟨s.nodeCache,
                  ⟨(get_node_page_index index npd.nodes_per_page, page)
                    :: s.slpk.pageCache, s.slpk.fetchCount + 1⟩⟩) := by
            simp [NodeArray.get_st, hc, SceneLayerPackage.get_node_st, hnp,
              SceneLayerPackage.get_node_page, lookupA, hlt]
          refine ⟨?_, ?_, ?_⟩ <;> rw [h1] <;> simp [h2]

/-- Witness for C8: resolving node 0 twice against a one-node backend. -/
theorem resolve_twice_cached_when_page_fetch_succeeds_witness :
    sd_one_per_page.node_pages = some npd_one
      ∧ 0 < npd_one.nodes_per_page
      ∧ (backend_one_node (get_node_page_index 0 npd_one.nodes_per_page)).isOk = true
      ∧ ((NodeArray.get_st sd_one_per_page backend_one_node state_empty 0).1
          = (NodeArray.get_st sd_one_per_page backend_one_node
              (NodeArray.get_st sd_one_per_page backend_one_node state_empty 0).2 0).1
        ∧ (NodeArray.get_st sd_one_per_page backend_one_node
            (NodeArray.get_st sd_one_per_page backend_one_node state_empty 0).2 0).2
          = (NodeArray.get_st sd_one_per_page backend_one_node state_empty 0).2
        ∧ (NodeArray.get_st sd_one_per_page backend_one_node state_empty 0).2.slpk.fetchCount
          ≤ state_empty.slpk.fetchCount + 1) :=
  ⟨rfl, by decide, rfl,
   resolve_twice_cached_when_page_fetch_succeeds sd_one_per_page backend_one_node
     state_empty 0 npd_one rfl (by decide) rfl⟩

/-- Counterexample to C8 as stated: when the page fetch fails, nothing
is cached, so resolving the same index twice performs two backend
fetches — the second call does fetch again. -/
theorem resolve_twice_refetches_on_fetch_failure :
    (NodeArray.get_st sd_one_per_page backend_fail state_empty 0).1 = none
      ∧ (NodeArray.get_st sd_one_per_page backend_fail
          (NodeArray.get_st sd_one_per_page backend_fail state_empty 0).2 0).1 = none
      ∧ (NodeArray.get_st sd_one_per_page backend_fail state_empty 0).2.slpk.fetchCount = 1
      ∧ (NodeArray.get_st sd_one_per_page backend_fail
          (NodeArray.get_st sd_one_per_page backend_fail state_empty 0).2 0).2.slpk.fetchCount
        = 2 :=
  ⟨rfl, rfl, rfl, rfl⟩

/-- C6: on an archive without the mandatory `3dSceneLayer.json.gz`
entry, `SceneLayerPackage::open` itself returns the not-found error,
but the `SceneLayer::from_uri` path panics instead of returning it,
because `resource_manager_factory` unwraps the open result. -/
theorem from_uri_missing_scene_entry_panics :
    SceneLayerPackage.open decode_stub zip_empty
        = Except.error "Failed to find file in archive: 3dSceneLayer.json.gz"
      ∧ SceneLayer.from_uri decode_stub connect_stub zip_empty "layer.slpk".toList
        = Outcome.panic := by
  constructor
  · rfl
  · have hfmt : I3SFormat.from_uri "layer.slpk".toList = Except.ok I3SFormat.SLPK := by
      simp [I3SFormat.from_uri]
      decide
    simp [SceneLayer.from_uri, hfmt]
    rfl

/-- C7: `decode_material` with a definition id out of range for the
texture-set table panics (out-of-bounds `Vec` index) instead of
returning an error: on a scene whose table is present but empty, a
fresh material with definition id 0 hits the panic. -/
theorem decode_material_out_of_range_panics :
    MeshPyramidDecoder.decode_material sd_empty_textures
        (SceneLayerPackage.create_texture_uri sd_empty_textures) get_stub
        material_fresh Compression.Uncompressed
      = Outcome.panic := by
  rfl

/-- C9: the `parent_index >= nodes.len()` guard in `Node::get_parent`
compares the parent index against the number of nodes materialized so
far, so after resolving only node 1 (whose parent is the resolvable
node 1000 listing node 1 among its children), `get_parent` returns
`none` — hence node 1 is not contained in the children of its parent as
computed through `get_parent`, and `get_siblings` is empty. -/
theorem get_parent_cache_size_guard_breaks_sibling_law :
    (NodeArray.get_st sd_one_per_page backend_two_nodes state_empty 1).1 = some node_one
      ∧ node_one.is_root = false
      ∧ (NodeArray.get_st sd_one_per_page backend_two_nodes
          (NodeArray.get_st sd_one_per_page backend_two_nodes state_empty 1).2 1000).1
        = some node_thousand
      ∧ node_one.index ∈ node_thousand.children
      ∧ (Node.get_parent sd_one_per_page backend_two_nodes node_one
          (NodeArray.get_st sd_one_per_page backend_two_nodes state_empty 1).2).1
        = none
      ∧ (Node.get_siblings sd_one_per_page backend_two_nodes node_one
          (NodeArray.get_st sd_one_per_page backend_two_nodes state_empty 1).2).1
        = [] := by
  refine ⟨rfl, rfl, rfl, by decide, rfl, rfl⟩

/-- Every tree has at least one node. -/
theorem NTree.size_pos (t : NTree) : 1 ≤ t.size := by
  cases t with
  | mk n cs => simp [NTree.size]

/-- Pushing the roots of a forest in child-list order onto the work
list yields the reversed root list one level deep. -/
theorem stackRev_eq_roots_rev (N : Nat) : ∀ cs : NForest, cs.sizeF ≤ N →
    ∀ l : Nat,
      (NForest.roots cs).reverse.map (fun c => ((some c : Option Node), l))
        = NForest.stackRev cs l := by
  induction N with
  | zero =>
    intro cs h l
    cases cs with
    | nil => simp [NForest.roots, NForest.stackRev]
    | cons t ts =>
      exfalso
      have := NTree.size_pos t
      simp [NForest.sizeF] at h
      omega
  | succ N ih =>
    intro cs h l
    cases cs with
    | nil => simp [NForest.roots, NForest.stackRev]
    | cons t ts =>
      have hts : ts.sizeF ≤ N := by
        have := NTree.size_pos t
        simp [NForest.sizeF] at h
        omega
      simp [NForest.roots, NForest.stackRev, ← ih ts hts l]

/-- The traversal loop halts on an empty work list. -/
theorem traverseAux_nil (store : Nat → Option Node) (cb : Node → Nat → Bool)
    (fuel : Nat) : traverseAux store cb fuel [] = [] := by
  cases fuel <;> rfl

/-- Main run lemma: with the always-continue visitor, running the loop
on a stack segment holding the roots of a represented forest (pushed in
child order) visits exactly the forest's flatten sequence and then
continues with the remaining stack and fuel; the fuel consumed is
exactly the forest's node count. -/
theorem traverseAux_stackRev (store : Nat → Option Node) (N : Nat) :
    ∀ cs : NForest, cs.sizeF ≤ N → ReprF store cs →
      ∀ (l : Nat) (rest : List (Option Node × Nat)) (extra : Nat),
        traverseAux store (fun _ _ => true) (cs.sizeF + extra)
            (NForest.stackRev cs l ++ rest)
          = NForest.flattenRev cs l
              ++ traverseAux store (fun _ _ => true) extra rest := by
  induction N with
  | zero =>
    intro cs h _ l rest extra
    cases cs with
    | nil => simp [NForest.sizeF, NForest.stackRev, NForest.flattenRev]
    | cons t ts =>
      exfalso
      have := NTree.size_pos t
      simp [NForest.sizeF] at h
      omega
  | succ N ih =>
    intro cs h hrepr l rest extra
    cases cs with
    | nil => simp [NForest.sizeF, NForest.stackRev, NForest.flattenRev]
    | cons t ts =>
      cases hrepr with
      | cons _ _ hrt hrts =>
        have hts : ts.sizeF ≤ N := by
          have := NTree.size_pos t
          simp [NForest.sizeF] at h
          omega
        cases t with
        | mk n cs2 =>
          cases hrt with
          | mk _ _ hch hrcs2 =>
            have hcs2 : cs2.sizeF ≤ N := by
              simp [NForest.sizeF, NTree.size] at h
              omega
            have e1 : NForest.sizeF (NForest.cons (NTree.mk n cs2) ts) + extra
                = NForest.sizeF ts + ((NTree.mk n cs2).size + extra) := by
              simp [NForest.sizeF]
              omega
            have est : NForest.stackRev (NForest.cons (NTree.mk n cs2) ts) l ++ rest
                = NForest.stackRev ts l
                    ++ ((some (NTree.mk n cs2).root, l) :: rest) := by
              simp [NForest.stackRev, NTree.root]
            have step : traverseAux store (fun _ _ => true)
                ((NTree.mk n cs2).size + extra) ((some (NTree.mk n cs2).root, l) :: rest)
                = (n, l) :: (NForest.flattenRev cs2 ((l + 1) % 256)
                    ++ traverseAux store (fun _ _ => true) extra rest) := by
              have e2 : (NTree.mk n cs2).size + extra = (cs2.sizeF + extra) + 1 := by
                simp [NTree.size]
                omega
              rw [e2]
              show traverseAux store (fun _ _ => true) ((cs2.sizeF + extra) + 1)
                  ((some n, l) :: rest) = _
              simp only [traverseAux, if_true]
              rw [hch, stackRev_eq_roots_rev cs2.sizeF cs2 (le_refl _) ((l + 1) % 256),
                ih cs2 hcs2 hrcs2 ((l + 1) % 256) rest extra]
            rw [e1, est, ih ts hts hrts l ((some (NTree.mk n cs2).root, l) :: rest)
                ((NTree.mk n cs2).size + extra), step]
            simp [NForest.flattenRev, NTree.flatten]

/-- Tree version of the run lemma. -/
theorem traverseAux_tree (store : Nat → Option Node) (t : NTree)
    (hrepr : ReprT store t) (l : Nat) (rest : List (Option Node × Nat))
    (extra : Nat) :
    traverseAux store (fun _ _ => true) (t.size + extra)
        ((some t.root, l) :: rest)
      = NTree.flatten t l ++ traverseAux store (fun _ _ => true) extra rest := by
  have h := traverseAux_stackRev store (NForest.cons t NForest.nil).sizeF
    (NForest.cons t NForest.nil) (le_refl _)
    (ReprF.cons t NForest.nil hrepr ReprF.nil) l rest extra
  simpa [NForest.sizeF, NForest.stackRev, NForest.flattenRev] using h

/-- The visited node sequence of a full traversal projects to the
tree's index sequence in traversal order, at every start level. -/
theorem flatten_map_indicesRev (N : Nat) :
    (∀ t : NTree, t.size ≤ N → ∀ l,
        (NTree.flatten t l).map (fun p => p.1.index) = NTree.indicesRev t)
      ∧ (∀ cs : NForest, cs.sizeF ≤ N → ∀ l,
          (NForest.flattenRev cs l).map (fun p => p.1.index)
            = NForest.indicesRevF cs) := by
  induction N with
  | zero =>
    constructor
    · intro t h
      exfalso
      have := NTree.size_pos t
      omega
    · intro cs h l
      cases cs with
      | nil => simp [NForest.flattenRev, NForest.indicesRevF]
      | cons t ts =>
        exfalso
        have := NTree.size_pos t
        simp [NForest.sizeF] at h
        omega
  | succ N ih =>
    have htree : ∀ t : NTree, t.size ≤ N + 1 → ∀ l,
        (NTree.flatten t l).map (fun p => p.1.index) = NTree.indicesRev t := by
      intro t h l
      cases t with
      | mk n cs2 =>
        have hcs2 : cs2.sizeF ≤ N := by
          simp [NTree.size] at h
          omega
        simp [NTree.flatten, NTree.indicesRev, ih.2 cs2 hcs2]
    refine ⟨htree, ?_⟩
    intro cs h l
    cases cs with
    | nil => simp [NForest.flattenRev, NForest.indicesRevF]
    | cons t ts =>
      have h1 : t.size ≤ N + 1 := by
        simp [NForest.sizeF] at h
        omega
      have h2 : ts.sizeF ≤ N := by
        have := NTree.size_pos t
        simp [NForest.sizeF] at h
        omega
      simp [NForest.flattenRev, NForest.indicesRevF, htree t h1 l, ih.2 ts h2 l]

/-- Each root of a forest is visited at the forest's level. -/
theorem root_mem_flattenRev (N : Nat) : ∀ cs : NForest, cs.sizeF ≤ N →
    ∀ c ∈ NForest.roots cs, ∀ l, (c, l) ∈ NForest.flattenRev cs l := by
  induction N with
  | zero =>
    intro cs h c hc l
    cases cs with
    | nil => simp [NForest.roots] at hc
    | cons t ts =>
      exfalso
      have := NTree.size_pos t
      simp [NForest.sizeF] at h
      omega
  | succ N ih =>
    intro cs h c hc l
    cases cs with
    | nil => simp [NForest.roots] at hc
    | cons t ts =>
      have h2 : ts.sizeF ≤ N := by
        have := NTree.size_pos t
        simp [NForest.sizeF] at h
        omega
      simp [NForest.roots] at hc
      rcases hc with hc | hc
      · cases t with
        | mk n cs2 =>
          simp [NTree.root] at hc
          subst hc
          simp [NForest.flattenRev, NTree.flatten]
      · have := ih ts h2 c hc l
        simp [NForest.flattenRev]
        exact Or.inl this

/-- Level bookkeeping of a full traversal: whenever a node is visited
at some level, each of its resolved children is visited at that level
plus one, modulo 256. -/
theorem flatten_child_levels (N : Nat) (store : Nat → Option Node) :
    (∀ t : NTree, t.size ≤ N → ReprT store t → ∀ l p lp,
        (p, lp) ∈ NTree.flatten t l →
          ∀ c ∈ getChildrenPure store p, (c, (lp + 1) % 256) ∈ NTree.flatten t l)
      ∧ (∀ cs : NForest, cs.sizeF ≤ N → ReprF store cs → ∀ l p lp,
          (p, lp) ∈ NForest.flattenRev cs l →
            ∀ c ∈ getChildrenPure store p,
              (c, (lp + 1) % 256) ∈ NForest.flattenRev cs l) := by
  induction N with
  | zero =>
    constructor
    · intro t h
      exfalso
      have := NTree.size_pos t
      omega
    · intro cs h _ l p lp hmem
      cases cs with
      | nil => simp [NForest.flattenRev] at hmem
      | cons t ts =>
        exfalso
        have := NTree.size_pos t
        simp [NForest.sizeF] at h
        omega
  | succ N ih =>
    have htree : ∀ t : NTree, t.size ≤ N + 1 → ReprT store t → ∀ l p lp,
        (p, lp) ∈ NTree.flatten t l →
          ∀ c ∈ getChildrenPure store p,
            (c, (lp + 1) % 256) ∈ NTree.flatten t l := by
      intro t h hrt l p lp hmem c hc
      cases t with
      | mk n cs2 =>
        cases hrt with
        | mk _ _ hch hrcs2 =>
          have hcs2 : cs2.sizeF ≤ N := by
            simp [NTree.size] at h
            omega
          simp [NTree.flatten] at hmem
          rcases hmem with ⟨hp, hl⟩ | hmem
          · subst hp
            subst hl
            rw [hch] at hc
            have := root_mem_flattenRev cs2.sizeF cs2 (le_refl _) c hc ((lp + 1) % 256)
            simp [NTree.flatten]
            exact Or.inr this
          · have := ih.2 cs2 hcs2 hrcs2 ((l + 1) % 256) p lp hmem c hc
            simp [NTree.flatten]
            exact Or.inr this
    refine ⟨htree, ?_⟩
    intro cs h hrepr l p lp hmem c hc
    cases cs with
    | nil => simp [NForest.flattenRev] at hmem
    | cons t ts =>
      cases hrepr with
      | cons _ _ hrt hrts =>
        have h1 : t.size ≤ N + 1 := by
          simp [NForest.sizeF] at h
          omega
        have h2 : ts.sizeF ≤ N := by
          have := NTree.size_pos t
          simp [NForest.sizeF] at h
          omega
        simp [NForest.flattenRev] at hmem
        simp [NForest.flattenRev]
        rcases hmem with hmem | hmem
        · exact Or.inl (ih.2 ts h2 hrts l p lp hmem c hc)
        · exact Or.inr (htree t h1 hrt l p lp hmem c hc)

/-- Stopping behaviour: with an arbitrary visitor, the loop produces
exactly the all-true visit sequence cut at (and including) the first
node the visitor rejects. -/
theorem traverseAux_takeThrough (store : Nat → Option Node)
    (cb : Node → Nat → Bool) :
    ∀ (fuel : Nat) (stack : List (Option Node × Nat)),
      traverseAux store cb fuel stack
        = takeThrough (fun q => cb q.1 q.2)
            (traverseAux store (fun _ _ => true) fuel stack) := by
  intro fuel
  induction fuel with
  | zero => intro stack; rfl
  | succ fuel ih =>
    intro stack
    cases stack with
    | nil => rfl
    | cons hd rest =>
      rcases hd with ⟨o, lv⟩
      cases o with
      | none =>
        simp only [traverseAux]
        exact ih rest
      | some nd =>
        by_cases hcb : cb nd lv
        · simp only [traverseAux, hcb, if_true, takeThrough]
          simp [hcb, ih]
        · simp only [traverseAux, hcb, if_true, takeThrough]
          simp [hcb]

/-- C2 (amended): for every finite node tree represented by the
resolution function, the traversal with an always-continue visitor
visits exactly the tree's nodes — each reachable node exactly once when
the tree's indices are distinct — with the root first at level 0 and
every resolved child of a visited node visited at its parent's level
plus one MODULO 256 (the level counter is an 8-bit integer and wraps on
trees deeper than 255 levels, so the claim's exact "parent + 1" fails
there: see the counterexample); and with an arbitrary visitor the visit
sequence is the full sequence cut at (and including) the first rejected
node, so nothing queued after the stopping node is visited. -/
theorem traverse_visits_tree_mod256 (store : Nat → Option Node) (t : NTree)
    (root_index : Nat) (extra : Nat)
    (hrepr : ReprT store t) (hroot : store root_index = some t.root) :
    (NodeArray.traverse store (fun _ _ => true) (t.size + extra) root_index
        = NTree.flatten t 0)
      ∧ ((NodeArray.traverse store (fun _ _ => true) (t.size + extra) root_index).map
            (fun p => p.1.index) = NTree.indicesRev t)
      ∧ ((NTree.indicesRev t).Nodup → ∀ i ∈ NTree.indicesRev t,
          ((NodeArray.traverse store (fun _ _ => true) (t.size + extra) root_index).map
              (fun p => p.1.index)).count i = 1)
      ∧ (NodeArray.traverse store (fun _ _ => true) (t.size + extra) root_index).head?
          = some (t.root, 0)
      ∧ (∀ p lp,
          (p, lp) ∈ NodeArray.traverse store (fun _ _ => true) (t.size + extra) root_index →
            ∀ c ∈ getChildrenPure store p,
              (c, (lp + 1) % 256)
                ∈ NodeArray.traverse store (fun _ _ => true) (t.size + extra) root_index)
      ∧ (∀ cb : Node → Nat → Bool,
          NodeArray.traverse store cb (t.size + extra) root_index
            = takeThrough (fun q => cb q.1 q.2)
                (NodeArray.traverse store (fun _ _ => true) (t.size + extra) root_index)) := by
  have hmain : NodeArray.traverse store (fun _ _ => true) (t.size + extra) root_index
      = NTree.flatten t 0 := by
    unfold NodeArray.traverse
    rw [hroot, traverseAux_tree store t hrepr 0 [] extra, traverseAux_nil]
    simp
  refine ⟨hmain, ?_, ?_, ?_, ?_, ?_⟩
  · rw [hmain]
    exact (flatten_map_indicesRev t.size).1 t (le_refl _) 0
  · intro hnodup i hi
    rw [hmain, (flatten_map_indicesRev t.size).1 t (le_refl _) 0]
    exact List.count_eq_one_of_mem hnodup hi
  · rw [hmain]
    cases t with
    | mk n cs => simp [NTree.flatten, NTree.root]
  · intro p lp hmem c hc
    rw [hmain] at hmem ⊢
    exact (flatten_child_levels t.size store).1 t (le_refl _) hrepr 0 p lp hmem c hc
  · intro cb
    simp only [NodeArray.traverse]
    exact traverseAux_takeThrough store cb (t.size + extra) [(store root_index, 0)]

/-- Witness for C2 on the three-node scene (root 0 with children 1, 2):
the representation hypotheses hold and the traversal flattens the
tree. -/
theorem traverse_visits_tree_mod256_witness :
    ReprT store_small tree_small
      ∧ store_small 0 = some tree_small.root
      ∧ NodeArray.traverse store_small (fun _ _ => true) (tree_small.size + 0) 0
          = NTree.flatten tree_small 0 :=
  ⟨ReprT.mk _ _ (by decide)
     (ReprF.cons _ _ (ReprT.mk _ _ (by decide) ReprF.nil)
       (ReprF.cons _ _ (ReprT.mk _ _ (by decide) ReprF.nil) ReprF.nil)),
   rfl,
   (traverse_visits_tree_mod256 store_small tree_small 0 0
     (ReprT.mk _ _ (by decide)
       (ReprF.cons _ _ (ReprT.mk _ _ (by decide) ReprF.nil)
         (ReprF.cons _ _ (ReprT.mk _ _ (by decide) ReprF.nil) ReprF.nil)))
     rfl).1⟩

set_option maxRecDepth 4000 in
/-- Counterexample to C2 as stated: on the 257-node chain, node 255 is
visited (once) at level 255 while its only child, node 256, is visited
(once) at level 0 — the `u8` level counter wraps, so the child's level
is not its parent's level plus one. -/
theorem traverse_level_wraps_at_depth_256 :
    ((NodeArray.traverse store_chain (fun _ _ => true) 300 0).filter
        (fun p => p.1.index == 255)).map (fun p => p.2) = [255]
      ∧ ((NodeArray.traverse store_chain (fun _ _ => true) 300 0).filter
          (fun p => p.1.index == 256)).map (fun p => p.2) = [0]
      ∧ ((NodeArray.traverse store_chain (fun _ _ => true) 300 0).filter
          (fun p => p.1.index == 255)).map (fun p => p.1.children) = [[256]] := by
  refine ⟨?_, ?_, ?_⟩ <;> decide

end I3S
